import Mathlib

/-!
# Verification of the D2C insight-derivation engine

Shallow embedding of `InsightGenerator` from `src/D2C.py` (the insight
engine: `_normalize_value`, `analyze`, `save_insights_to_json`) together
with proofs checking the specification's claims against it.

Modelling conventions:
* Numbers are `ℚ` (the Python code works on finite decimals read from CSV).
* A pandas DataFrame is a list of present column names plus a list of rows.
  `analyze` only ever reads the columns `channel`, `roas`, `spend`,
  `search_volume`, `average_position` and `category`; other columns matter
  only through their presence (a missing column raises `KeyError`), so a
  `Row` carries exactly the read fields and `DFrame.cols` carries presence.
* `df.groupby('channel')` sorts the group keys lexicographically by code
  point (pandas default `sort=True`; Python string order), `strLe` below.
* `sort_values(by=k, ascending=False)` is a stable descending sort:
  pandas `nargsort` reverses the values and index before the ascending
  argsort (stable for the frames at issue: numpy insertion sort on small
  arrays) and reverses the resulting indexer again, so ties keep their
  pre-sort order.  `isortBy` below is a stable insertion sort; a
  descending sort is `isortBy` with the flipped comparison.
* `Series.median()` on an even count is the mean of the two middle values.
* `round(x, 2)` is round-half-to-even at two decimals, `pyRound2`.
* Free-text fields (`recommendation`, `justification`) are abstracted to
  the interpolated subject (channel / category name); the numeric
  `confidence.score` is kept exactly.
* Python exceptions become an `Except` value; the mutable `self.insights`
  list (initialized once in `__init__`, appended to by `analyze`) becomes
  explicit state threaded through `analyze`, which returns
  (exception-or-unit, final insight list).
* Writing a file in `save_insights_to_json` becomes returning `some`
  document; the early `return` on an empty insight list becomes `none`.
-/

namespace D2C

/-- One observation row: exactly the columns `analyze` reads. -/
structure Row where
  channel : String
  category : String
  spend : ℚ
  roas : ℚ
  search_volume : ℚ
  average_position : ℚ
deriving DecidableEq

/-- A DataFrame: the set of column names present, plus the rows. -/
structure DFrame where
  cols : List String
  rows : List Row
deriving DecidableEq

/-- A raised Python exception relevant to `analyze`: pandas raises
`KeyError(name)` when a missing column is accessed. -/
inductive PyError where
  | keyError : String → PyError
deriving DecidableEq

/-- `InsightGenerator._normalize_value` (src/D2C.py lines 55-57):
`if max_val == min_val: return 1.0` then `(value - min_val) / (max_val - min_val)`. -/
def _normalize_value (value min_val max_val : ℚ) : ℚ :=
  if max_val = min_val then 1 else (value - min_val) / (max_val - min_val)

/-- Python `round(q, 2)`: round half to even at two decimal places. -/
def pyRound2 (q : ℚ) : ℚ :=
  let s : ℚ := q * 100
  let f : ℤ := ⌊s⌋
  let r : ℚ := s - (f : ℚ)
  let n : ℤ :=
    if r < 1/2 then f
    else if 1/2 < r then f + 1
    else if f % 2 = 0 then f else f + 1
  (n : ℚ) / 100

/-- Lexicographic less-or-equal on code-point lists (Python string order). -/
def natLexLe : List Nat → List Nat → Bool
  | [], _ => true
  | _ :: _, [] => false
  | a :: as, b :: bs =>
    if a < b then true else if b < a then false else natLexLe as bs

/-- Python string comparison `a <= b`: lexicographic on code points. -/
def strLe (a b : String) : Bool :=
  natLexLe (a.data.map Char.toNat) (b.data.map Char.toNat)

/-- Insert `x` before the first element `y` with `le x y`; used by the
stable insertion sort `isortBy`. -/
def insertBy {α : Type} (le : α → α → Bool) (x : α) : List α → List α
  | [] => [x]
  | y :: ys => if le x y then x :: y :: ys else y :: insertBy le x ys

/-- Stable insertion sort: equal elements keep their input order. -/
def isortBy {α : Type} (le : α → α → Bool) : List α → List α
  | [] => []
  | x :: xs => insertBy le x (isortBy le xs)

/-- Distinct channel values in first-encounter order. -/
def channelsInOrder (rows : List Row) : List String :=
  rows.foldl (fun acc r => if r.channel ∈ acc then acc else acc ++ [r.channel]) []

/-- The group keys of `df.groupby('channel')`: distinct channels,
sorted lexicographically (pandas `sort=True` default). -/
def sortedChannels (rows : List Row) : List String :=
  isortBy strLe (channelsInOrder rows)

/-- One line of `channel_perf`: `avg_roas=('roas','mean')`,
`total_spend=('spend','sum')`. -/
structure ChannelAggregate where
  channel : String
  avg_roas : ℚ
  total_spend : ℚ
deriving DecidableEq

/-- The aggregate row for channel `c`. -/
def aggFor (rows : List Row) (c : String) : ChannelAggregate :=
  let grp := rows.filter (fun r => r.channel = c)
  ⟨c, ((grp.map Row.roas).sum) / (grp.length : ℚ), (grp.map Row.spend).sum⟩

/-- `self.df.groupby('channel').agg(...).sort_values(by='avg_roas',
ascending=False)` (src/D2C.py line 63): aggregates in sorted-key order,
then a stable descending sort by avg_roas (ties keep the alphabetical
group order). -/
def channelPerf (rows : List Row) : List ChannelAggregate :=
  isortBy (fun a b => decide (b.avg_roas ≤ a.avg_roas))
    ((sortedChannels rows).map (aggFor rows))

/-- `Series.min()` over a nonempty column (0 on the unused empty case). -/
def listMin : List ℚ → ℚ
  | [] => 0
  | x :: xs => xs.foldl min x

/-- `Series.max()` over a nonempty column (0 on the unused empty case). -/
def listMax : List ℚ → ℚ
  | [] => 0
  | x :: xs => xs.foldl max x

/-- The core's output unit; `recommendation`/`justification` strings are
abstracted to the interpolated `subject`, `confidence` to its `score`. -/
structure Insight where
  insight_id : String
  type : String
  title : String
  subject : String
  score : ℚ
deriving DecidableEq

/-- The channel-ranking rule (src/D2C.py lines 63-75): if `channel_perf`
is nonempty, emit FUN-001 for `channel_perf.iloc[0]` with score
`round(normalize(top_spend, spend_min, spend_max), 2)`. -/
def channelRule (rows : List Row) : List Insight :=
  match channelPerf rows with
  | [] => []
  | top :: _ =>
    let spends := (channelPerf rows).map ChannelAggregate.total_spend
    [⟨"FUN-001", "Funnel", "Top Channel by ROAS", top.channel,
      pyRound2 (_normalize_value top.total_spend (listMin spends) (listMax spends))⟩]

/-- `Series.median()`: middle element for odd length, mean of the two
middle elements for even length (0 on the unused empty case). -/
def median (l : List ℚ) : ℚ :=
  let s := isortBy (fun a b => decide (a ≤ b)) l
  if s.length = 0 then 0
  else if s.length % 2 = 1 then s.getD (s.length / 2) 0
  else (s.getD (s.length / 2 - 1) 0 + s.getD (s.length / 2) 0) / 2

/-- The SEO filter (src/D2C.py line 78):
`(search_volume >= median) & (average_position > 5)`. -/
def seoFilter (rows : List Row) : List Row :=
  rows.filter (fun r =>
    decide (median (rows.map Row.search_volume) ≤ r.search_volume) &&
    decide ((5 : ℚ) < r.average_position))

/-- `high_potential.sort_values(by='search_volume', ascending=False).iloc[0]`:
the selected SEO-opportunity row, if any (stable descending sort: volume
ties keep their row order). -/
def seoTop (rows : List Row) : Option Row :=
  (isortBy (fun a b => decide (b.search_volume ≤ a.search_volume))
    (seoFilter rows)).head?

/-- The SEO-001 insight for the selected row (src/D2C.py lines 81-90):
score normalized against `search_volume` over ALL rows, then rounded. -/
def mkSeoInsight (rows : List Row) (top : Row) : Insight :=
  let vols := rows.map Row.search_volume
  ⟨"SEO-001", "SEO", "High-Volume, Poorly Ranked Category", top.category,
    pyRound2 (_normalize_value top.search_volume (listMin vols) (listMax vols))⟩

/-- The SEO-opportunity rule in isolation: at most one insight. -/
def seoRule (rows : List Row) : List Insight :=
  match seoTop rows with
  | none => []
  | some t => [mkSeoInsight rows t]

/-- `InsightGenerator.analyze` (src/D2C.py lines 59-90), with the mutable
`self.insights` as explicit state.  Column accesses happen in source
order: `groupby('channel')` then agg on `roas`, `spend`; after the channel
insight is appended, line 78 reads `search_volume` and `average_position`;
`top_opp['category']` is read only when a qualifying row exists.  A missing
column raises `KeyError` at that point, leaving the insights appended so
far in place. -/
def analyze (st : List Insight) (df : DFrame) : Except PyError Unit × List Insight :=
  if "channel" ∈ df.cols then
    if "roas" ∈ df.cols then
      if "spend" ∈ df.cols then
        let st1 := st ++ channelRule df.rows
        if "search_volume" ∈ df.cols then
          if "average_position" ∈ df.cols then
            match seoTop df.rows with
            | none => (Except.ok (), st1)
            | some top =>
              if "category" ∈ df.cols then
                (Except.ok (), st1 ++ [mkSeoInsight df.rows top])
              else (Except.error (PyError.keyError "category"), st1)
          else (Except.error (PyError.keyError "average_position"), st1)
        else (Except.error (PyError.keyError "search_volume"), st1)
      else (Except.error (PyError.keyError "spend"), st)
    else (Except.error (PyError.keyError "roas"), st)
  else (Except.error (PyError.keyError "channel"), st)

/-- The required columns of the input contract. -/
def fullCols : List String :=
  ["channel", "category", "spend", "revenue", "clicks", "impressions",
   "conversions", "roas", "search_volume", "average_position"]

/-- A DataFrame carrying every required column. -/
def mkDF (rows : List Row) : DFrame := ⟨fullCols, rows⟩

/-- The serialized report document (file-path details abstracted away). -/
structure Report where
  report_generated_utc : String
  insights : List Insight
deriving DecidableEq

/-- `InsightGenerator.save_insights_to_json` (src/D2C.py lines 92-100):
`if not self.insights: return` writes nothing (`none`); otherwise the
document with timestamp and insights is written (`some`). -/
def save_insights_to_json (insights : List Insight) (now : String) : Option Report :=
  if insights = [] then none else some ⟨now, insights⟩

/-- Row 1 of the spec's end-to-end example. -/
def exRow1 : Row := ⟨"Email", "Shoes", 50, 4, 800, 8⟩

/-- Row 2 of the spec's end-to-end example. -/
def exRow2 : Row := ⟨"Paid Social", "Bags", 500, 2, 200, 2⟩

/-- C1: on the spec's two-row example table, `analyze` succeeds and emits
exactly FUN-001 naming channel "Email" with confidence score 0.0, then
SEO-001 naming category "Shoes" with confidence score 1.0. -/
theorem C1_end_to_end :
    analyze [] (mkDF [exRow1, exRow2]) =
      (Except.ok (),
       [⟨"FUN-001", "Funnel", "Top Channel by ROAS", "Email", 0⟩,
        ⟨"SEO-001", "SEO", "High-Volume, Poorly Ranked Category", "Shoes", 1⟩]) := by
  with_unfolding_all rfl

/-- C2: `_normalize_value` returns 1 whenever min = max (for any value),
otherwise `(value - min) / (max - min)`; consequently for min < max and
value in [min, max] the result lies in [0, 1], it is 0 at the minimum and
1 at the maximum. -/
theorem C2_normalize_spec :
    (∀ v m : ℚ, _normalize_value v m m = 1) ∧
    (∀ v mn mx : ℚ, mx ≠ mn → _normalize_value v mn mx = (v - mn) / (mx - mn)) ∧
    (∀ v mn mx : ℚ, mn < mx → mn ≤ v → v ≤ mx →
      0 ≤ _normalize_value v mn mx ∧ _normalize_value v mn mx ≤ 1) ∧
    (∀ mn mx : ℚ, mn < mx →
      _normalize_value mn mn mx = 0 ∧ _normalize_value mx mn mx = 1) := by
  refine ⟨fun v m => ?_, fun v mn mx h => ?_, fun v mn mx h h1 h2 => ?_, fun mn mx h => ?_⟩
  · simp [_normalize_value]
  · simp [_normalize_value, h]
  · have hne : mx ≠ mn := ne_of_gt h
    have hpos : 0 < mx - mn := sub_pos.mpr h
    constructor
    · rw [_normalize_value, if_neg hne]
      exact div_nonneg (sub_nonneg.mpr h1) hpos.le
    · rw [_normalize_value, if_neg hne]
      exact (div_le_one hpos).mpr (sub_le_sub_right h2 mn)
  · have hne : mx ≠ mn := ne_of_gt h
    have hpos : (0 : ℚ) < mx - mn := sub_pos.mpr h
    constructor
    · simp [_normalize_value, hne]
    · rw [_normalize_value, if_neg hne]
      exact div_self hpos.ne'

/-- Witness for C2: the bounds and endpoint equations at concrete inputs
1 ≤ 2 ≤ 4. -/
theorem C2_normalize_spec_witness :
    (0 ≤ _normalize_value 2 1 4 ∧ _normalize_value 2 1 4 ≤ 1) ∧
    (_normalize_value 1 1 4 = 0 ∧ _normalize_value 4 1 4 = 1) :=
  ⟨C2_normalize_spec.2.2.1 2 1 4 (by norm_num) (by norm_num) (by norm_num),
   C2_normalize_spec.2.2.2 1 4 (by norm_num)⟩

/-- C6: an empty table (all columns present, zero rows) raises nothing and
yields zero insights, and each of the two rules emits nothing on it. -/
theorem C6_empty_table :
    analyze [] (mkDF []) = (Except.ok (), []) ∧
    channelRule [] = [] ∧ seoRule [] = [] := by
  refine ⟨?_, ?_, ?_⟩ <;> with_unfolding_all rfl

/-- C9 counterexample: with max_val = 0 strictly less than min_val = 10,
`_normalize_value` does not raise: it returns `(5 - 10) / (0 - 10) = 1/2`. -/
theorem C9_counterexample : _normalize_value 5 10 0 = 1/2 := by
  norm_num [_normalize_value]

/-- C9 amended: when max_val < min_val the function raises no error and
returns the linear formula `(value - min_val) / (max_val - min_val)`;
there is no guard on argument order (the Python body has no raise path). -/
theorem C9_amended (v mn mx : ℚ) (h : mx < mn) :
    _normalize_value v mn mx = (v - mn) / (mx - mn) := by
  simp [_normalize_value, ne_of_lt h]

/-- Witness for C9 amended: the formula at value 5, min 10, max 0. -/
theorem C9_amended_witness : _normalize_value 5 10 0 = (5 - 10) / (0 - 10) :=
  C9_amended 5 10 0 (by norm_num)

/-- A concrete insight used to witness the nonempty branch of
`save_insights_to_json`. -/
def wInsight : Insight := ⟨"FUN-001", "Funnel", "Top Channel by ROAS", "Email", 0⟩

/-- C10: with an empty insight list (for example after analyzing an empty
table) `save_insights_to_json` writes no file at all; a document (with the
timestamp and the insights) is written exactly when at least one insight
exists. -/
theorem C10_save_empty :
    (∀ ts, save_insights_to_json [] ts = none) ∧
    (∀ ts, save_insights_to_json (analyze [] (mkDF [])).2 ts = none) ∧
    (∀ ins ts, ins ≠ [] → save_insights_to_json ins ts = some ⟨ts, ins⟩) := by
  refine ⟨fun ts => rfl, fun ts => ?_, fun ins ts h => ?_⟩
  · have h2 : (analyze [] (mkDF [])).2 = [] := by with_unfolding_all rfl
    rw [h2]; rfl
  · simp [save_insights_to_json, h]

/-- Witness for C10: a singleton insight list is serialized as a document. -/
theorem C10_save_empty_witness :
    save_insights_to_json [wInsight] "2024-01-01T00:00:00+00:00" =
      some ⟨"2024-01-01T00:00:00+00:00", [wInsight]⟩ :=
  C10_save_empty.2.2 [wInsight] "2024-01-01T00:00:00+00:00" (by simp)

/-- Boundary-test row: above-median, maximum volume, position exactly 5. -/
def bRow5 : Row := ⟨"Ch", "CatX", 0, 0, 1000, 5⟩

/-- Boundary-test row: identical to `bRow5` but position 5.01. -/
def bRow501 : Row := ⟨"Ch", "CatX", 0, 0, 1000, 501/100⟩

/-- Boundary-test row: below-median volume, good position. -/
def bRowLow : Row := ⟨"Ch2", "CatY", 0, 0, 100, 2⟩

/-- Median-inclusiveness row: volume equal to the table median, position 6. -/
def mRowEq : Row := ⟨"Ch", "MCat", 0, 0, 300, 6⟩

/-- Median-inclusiveness companion row: same volume, position 1. -/
def mRowOther : Row := ⟨"Ch2", "NCat", 0, 0, 300, 1⟩

/-- C3: a row passes the SEO filter iff it is in the table, its volume is
at least the median (inclusive), and its position is strictly above 5;
a position-5 row with the table's maximum volume is never selected, the
same row at position 5.01 is selected, and a row whose volume exactly
equals the median is eligible. -/
theorem C3_seo_rule_boundaries :
    (∀ rows r, r ∈ seoFilter rows ↔
      r ∈ rows ∧ median (rows.map Row.search_volume) ≤ r.search_volume ∧
        5 < r.average_position) ∧
    (bRow5.search_volume = listMax (([bRow5, bRowLow]).map Row.search_volume) ∧
      seoRule [bRow5, bRowLow] = [] ∧ seoFilter [bRow5, bRowLow] = []) ∧
    ((seoRule [bRow501, bRowLow]).map Insight.subject = ["CatX"]) ∧
    (mRowEq.search_volume = median (([mRowEq, mRowOther]).map Row.search_volume) ∧
      seoFilter [mRowEq, mRowOther] = [mRowEq]) := by
  refine ⟨fun rows r => ?_, ⟨?_, ?_, ?_⟩, ?_, ⟨?_, ?_⟩⟩
  · simp [seoFilter, List.mem_filter, Bool.and_eq_true, decide_eq_true_eq, and_assoc]
  all_goals with_unfolding_all rfl

/-- Channel-rule confidence row: top channel, spend 1 of spends 0,1,3. -/
def cRowA : Row := ⟨"A", "a", 1, 5, 0, 1⟩

/-- Channel-rule confidence row: middle channel. -/
def cRowB : Row := ⟨"B", "b", 0, 2, 0, 1⟩

/-- Channel-rule confidence row: bottom channel, largest spend. -/
def cRowC : Row := ⟨"C", "c", 3, 1, 0, 1⟩

/-- C4 counterexample: on a table whose top channel has total spend 1 with
spend range [0, 3], the emitted confidence score is `round(1/3, 2) = 0.33`,
which is not `normalize(1, 0, 3) = 1/3`: the code rounds the score to two
decimals, so the emitted score is not exactly the normalized value. -/
theorem C4_counterexample :
    (analyze [] (mkDF [cRowA, cRowB, cRowC])).2.map Insight.score = [33/100] ∧
    (33/100 : ℚ) ≠ _normalize_value 1 0 3 := by
  constructor
  · with_unfolding_all rfl
  · norm_num [_normalize_value]

/-- C4 amended: `analyze` on a full-column table emits the channel rule's
insights then the SEO rule's; the channel insight's score is
`normalize(top.total_spend, min spend over aggregates, max spend over
aggregates)` rounded to two decimals, and the SEO insight's score is
`normalize(selected.search_volume, min volume over ALL rows, max volume
over ALL rows)` rounded to two decimals. -/
theorem C4_amended :
    (∀ rows, analyze [] (mkDF rows) = (Except.ok (), channelRule rows ++ seoRule rows)) ∧
    (∀ rows top rest, channelPerf rows = top :: rest →
      channelRule rows = [⟨"FUN-001", "Funnel", "Top Channel by ROAS", top.channel,
        pyRound2 (_normalize_value top.total_spend
          (listMin ((channelPerf rows).map ChannelAggregate.total_spend))
          (listMax ((channelPerf rows).map ChannelAggregate.total_spend)))⟩]) ∧
    (∀ rows t, seoTop rows = some t →
      seoRule rows = [⟨"SEO-001", "SEO", "High-Volume, Poorly Ranked Category", t.category,
        pyRound2 (_normalize_value t.search_volume
          (listMin (rows.map Row.search_volume))
          (listMax (rows.map Row.search_volume)))⟩]) := by
  refine ⟨fun rows => ?_, fun rows top rest h => ?_, fun rows t h => ?_⟩
  · have h1 : ("channel" : String) ∈ fullCols := by simp [fullCols]
    have h2 : ("roas" : String) ∈ fullCols := by simp [fullCols]
    have h3 : ("spend" : String) ∈ fullCols := by simp [fullCols]
    have h4 : ("search_volume" : String) ∈ fullCols := by simp [fullCols]
    have h5 : ("average_position" : String) ∈ fullCols := by simp [fullCols]
    have h6 : ("category" : String) ∈ fullCols := by simp [fullCols]
    cases hm : seoTop rows with
    | none => simp [analyze, mkDF, h1, h2, h3, h4, h5, hm, seoRule]
    | some t => simp [analyze, mkDF, h1, h2, h3, h4, h5, h6, hm, seoRule]
  · unfold channelRule
    rw [h]
  · unfold seoRule
    rw [h]
    unfold mkSeoInsight
    rfl

/-- Witness for C4 amended: the score formula instantiated on the
three-channel table with spends 1, 0, 3. -/
theorem C4_amended_witness :
    channelRule [cRowA, cRowB, cRowC] =
      [⟨"FUN-001", "Funnel", "Top Channel by ROAS",
        (⟨"A", 5, 1⟩ : ChannelAggregate).channel,
        pyRound2 (_normalize_value (⟨"A", 5, 1⟩ : ChannelAggregate).total_spend
          (listMin ((channelPerf [cRowA, cRowB, cRowC]).map ChannelAggregate.total_spend))
          (listMax ((channelPerf [cRowA, cRowB, cRowC]).map ChannelAggregate.total_spend)))⟩] :=
  C4_amended.2.1 [cRowA, cRowB, cRowC] ⟨"A", 5, 1⟩ [⟨"B", 2, 0⟩, ⟨"C", 1, 3⟩]
    (by with_unfolding_all rfl)

/-- C5 counterexample: a table missing the required column `revenue`
(absent from its column list) is analyzed successfully, emitting both
insights — `analyze` does not fail on every missing required column, and
no `SchemaError` exists in the code. -/
theorem C5_counterexample :
    ("revenue" ∈ fullCols ∧ "revenue" ∉ fullCols.erase "revenue") ∧
    analyze [] ⟨fullCols.erase "revenue", [exRow1, exRow2]⟩ =
      (Except.ok (),
       [⟨"FUN-001", "Funnel", "Top Channel by ROAS", "Email", 0⟩,
        ⟨"SEO-001", "SEO", "High-Volume, Poorly Ranked Category", "Shoes", 1⟩]) := by
  constructor
  · constructor <;> with_unfolding_all decide
  · with_unfolding_all rfl

/-- C5 amended: only the columns the analysis actually reads matter.  A
missing `channel` fails at once with `KeyError('channel')` (uncaught, no
insights); with the channel-rule columns present but `search_volume`
absent, the call fails with `KeyError('search_volume')` after the channel
insight was already appended; removing any of `revenue`, `clicks`,
`impressions`, `conversions` leaves `analyze` unchanged. -/
theorem C5_amended :
    (∀ df, "channel" ∉ df.cols →
      analyze [] df = (Except.error (PyError.keyError "channel"), [])) ∧
    (∀ df, "channel" ∈ df.cols → "roas" ∈ df.cols → "spend" ∈ df.cols →
      "search_volume" ∉ df.cols →
      analyze [] df = (Except.error (PyError.keyError "search_volume"),
        channelRule df.rows)) ∧
    (∀ rows, ∀ c ∈ (["revenue", "clicks", "impressions", "conversions"] : List String),
      analyze [] ⟨fullCols.erase c, rows⟩ = analyze [] (mkDF rows)) := by
  refine ⟨fun df h => ?_, fun df h1 h2 h3 h4 => ?_, fun rows c hc => ?_⟩
  · simp [analyze, h]
  · simp [analyze, h1, h2, h3, h4]
  · fin_cases hc <;> rfl

/-- Witness for C5 amended: a frame with only the channel-rule columns
fails with `KeyError('search_volume')`, keeping the channel insight. -/
theorem C5_amended_witness :
    analyze [] ⟨["channel", "roas", "spend"], [exRow1]⟩ =
      (Except.error (PyError.keyError "search_volume"), channelRule [exRow1]) :=
  C5_amended.2.1 ⟨["channel", "roas", "spend"], [exRow1]⟩
    (by simp) (by simp) (by simp) (by simp)

/-- `insertBy` permutes: inserting `x` yields a permutation of `x :: l`. -/
theorem insertBy_perm {α : Type} (le : α → α → Bool) (x : α) (l : List α) :
    List.Perm (insertBy le x l) (x :: l) := by
  induction l with
  | nil => exact List.Perm.refl _
  | cons y ys ih =>
    unfold insertBy
    by_cases h : le x y = true
    · rw [if_pos h]
    · rw [if_neg h]
      exact (ih.cons y).trans (List.Perm.swap x y ys)

/-- Membership in `insertBy`. -/
theorem mem_insertBy {α : Type} (le : α → α → Bool) (x a : α) (l : List α) :
    a ∈ insertBy le x l ↔ a = x ∨ a ∈ l := by
  rw [(insertBy_perm le x l).mem_iff, List.mem_cons]

/-- `isortBy` permutes its input. -/
theorem isortBy_perm {α : Type} (le : α → α → Bool) (l : List α) :
    List.Perm (isortBy le l) l := by
  induction l with
  | nil => exact List.Perm.refl _
  | cons x xs ih => exact (insertBy_perm le x (isortBy le xs)).trans (ih.cons x)

/-- Inserting into a `le`-sorted list keeps it sorted, for a total
transitive comparison. -/
theorem pairwise_insertBy {α : Type} (le : α → α → Bool)
    (htot : ∀ a b, le a b = true ∨ le b a = true)
    (htrans : ∀ a b c, le a b = true → le b c = true → le a c = true)
    (x : α) {l : List α} (hl : l.Pairwise (fun a b => le a b = true)) :
    (insertBy le x l).Pairwise (fun a b => le a b = true) := by
  induction l with
  | nil => simp [insertBy]
  | cons y ys ih =>
    rcases List.pairwise_cons.mp hl with ⟨hy, hys⟩
    unfold insertBy
    by_cases h : le x y = true
    · rw [if_pos h]
      refine List.pairwise_cons.mpr ⟨?_, hl⟩
      intro z hz
      rcases List.mem_cons.mp hz with rfl | hz2
      · exact h
      · exact htrans x y z h (hy z hz2)
    · rw [if_neg h]
      refine List.pairwise_cons.mpr ⟨?_, ih hys⟩
      intro z hz
      rcases (mem_insertBy le x z ys).mp hz with rfl | hz2
      · rcases htot z y with h1 | h1
        · exact absurd h1 h
        · exact h1
      · exact hy z hz2

/-- `isortBy` sorts, for a total transitive comparison. -/
theorem isortBy_pairwise {α : Type} (le : α → α → Bool)
    (htot : ∀ a b, le a b = true ∨ le b a = true)
    (htrans : ∀ a b c, le a b = true → le b c = true → le a c = true)
    (l : List α) : (isortBy le l).Pairwise (fun a b => le a b = true) := by
  induction l with
  | nil => simp [isortBy]
  | cons x xs ih => exact pairwise_insertBy le htot htrans x ih

/-- On a list whose elements pairwise satisfy `le`, `isortBy` is the
identity (all comparisons hold, so every insertion is at the head). -/
theorem isortBy_eq_self {α : Type} (le : α → α → Bool) {l : List α}
    (h : ∀ a ∈ l, ∀ b ∈ l, le a b = true) : isortBy le l = l := by
  induction l with
  | nil => rfl
  | cons x xs ih =>
    have hxs : isortBy le xs = xs :=
      ih fun a ha b hb =>
        h a (List.mem_cons_of_mem _ ha) b (List.mem_cons_of_mem _ hb)
    unfold isortBy
    rw [hxs]
    cases xs with
    | nil => rfl
    | cons y ys =>
      unfold insertBy
      rw [if_pos (h x (List.mem_cons_self _ _) y
        (List.mem_cons_of_mem _ (List.mem_cons_self _ _)))]

/-- `natLexLe` is reflexive. -/
theorem natLexLe_refl : ∀ a : List Nat, natLexLe a a = true := by
  intro a
  induction a with
  | nil => rfl
  | cons x xs ih => simp [natLexLe, ih]

/-- `natLexLe` is total. -/
theorem natLexLe_total : ∀ a b : List Nat, natLexLe a b = true ∨ natLexLe b a = true := by
  intro a
  induction a with
  | nil => exact fun b => Or.inl rfl
  | cons x xs ih =>
    intro b
    cases b with
    | nil => exact Or.inr rfl
    | cons y ys =>
      by_cases h1 : x < y
      · left; simp [natLexLe, h1]
      · by_cases h2 : y < x
        · right; simp [natLexLe, h2]
        · rcases ih ys with h | h
          · left; simp [natLexLe, h1, h2, h]
          · right; simp [natLexLe, h1, h2, h]

/-- `natLexLe` is transitive. -/
theorem natLexLe_trans :
    ∀ a b c : List Nat, natLexLe a b = true → natLexLe b c = true →
      natLexLe a c = true := by
  intro a
  induction a with
  | nil => exact fun b c _ _ => rfl
  | cons x xs ih =>
    intro b c hab hbc
    cases b with
    | nil => simp [natLexLe] at hab
    | cons y ys =>
      cases c with
      | nil => simp [natLexLe] at hbc
      | cons z zs =>
        by_cases hxy : x < y
        · by_cases hyz : y < z
          · simp [natLexLe, lt_trans hxy hyz]
          · by_cases hzy : z < y
            · simp [natLexLe, hyz, hzy] at hbc
            · have hyz2 : y = z := by omega
              subst hyz2
              simp [natLexLe, hxy]
        · by_cases hyx : y < x
          · simp [natLexLe, hxy, hyx] at hab
          · have hxy2 : x = y := by omega
            subst hxy2
            simp only [natLexLe, lt_irrefl, if_false] at hab hbc ⊢
            by_cases hxz : x < z
            · simp [hxz]
            · by_cases hzx : z < x
              · simp [hxz, hzx] at hbc
              · simp [hxz, hzx] at hab hbc ⊢
                exact ih ys zs hab hbc

/-- `strLe` is reflexive. -/
theorem strLe_refl (a : String) : strLe a a = true := natLexLe_refl _

/-- `strLe` is total. -/
theorem strLe_total (a b : String) : strLe a b = true ∨ strLe b a = true :=
  natLexLe_total _ _

/-- `strLe` is transitive. -/
theorem strLe_trans (a b c : String) :
    strLe a b = true → strLe b c = true → strLe a c = true :=
  natLexLe_trans _ _ _

/-- Tie-break example row, channel "Beta", first in input. -/
def tRowB : Row := ⟨"Beta", "b", 1, 3, 0, 1⟩

/-- Tie-break example row, channel "Alpha", second in input. -/
def tRowA : Row := ⟨"Alpha", "a", 2, 3, 0, 1⟩

/-- Tie-break example row, channel "Gamma", third in input. -/
def tRowG : Row := ⟨"Gamma", "g", 3, 3, 0, 1⟩

/-- C7 counterexample: on a table whose channels appear in input order
Beta, Alpha, Gamma, all with equal avg_roas, the selected top channel is
"Alpha" — not "Beta", the channel first encountered in the input.  (The
groupby orders the groups alphabetically before the stable descending
sort, so input encounter order does not break the tie.) -/
theorem C7_counterexample :
    channelsInOrder [tRowB, tRowA, tRowG] = ["Beta", "Alpha", "Gamma"] ∧
    (channelPerf [tRowB, tRowA, tRowG]).map ChannelAggregate.avg_roas = [3, 3, 3] ∧
    (channelRule [tRowB, tRowA, tRowG]).map Insight.subject = ["Alpha"] ∧
    ("Alpha" : String) ≠ "Beta" := by
  refine ⟨?_, ?_, ?_, ?_⟩
  · with_unfolding_all rfl
  · with_unfolding_all rfl
  · with_unfolding_all rfl
  · simp

/-- C7 amended: channel aggregates are ordered by avg_roas descending, but
ties are broken by lexicographic channel-name order, not input encounter
order: `groupby` lists the groups alphabetically and the descending
`sort_values` is stable (ties keep the pre-sort order), so when every
aggregate has the same avg_roas the selected top channel is the
lexicographically least channel name. -/
theorem C7_amended :
    (∀ rows, (channelPerf rows).Pairwise
      (fun a b => b.avg_roas ≤ a.avg_roas)) ∧
    (∀ rows q, (∀ a ∈ channelPerf rows, a.avg_roas = q) →
      ∀ top rest, channelPerf rows = top :: rest →
        (∀ a ∈ channelPerf rows, strLe top.channel a.channel = true) ∧
        (channelRule rows).map Insight.subject = [top.channel]) := by
  constructor
  · intro rows
    unfold channelPerf
    have h := isortBy_pairwise (fun a b : ChannelAggregate => decide (b.avg_roas ≤ a.avg_roas))
      (fun a b => by
        rcases le_total b.avg_roas a.avg_roas with h | h
        · exact Or.inl (decide_eq_true h)
        · exact Or.inr (decide_eq_true h))
      (fun a b c hab hbc =>
        decide_eq_true (le_trans (of_decide_eq_true hbc) (of_decide_eq_true hab)))
      ((sortedChannels rows).map (aggFor rows))
    exact h.imp fun hab => of_decide_eq_true hab
  · intro rows q hq top rest h
    have hmem : ∀ a, a ∈ channelPerf rows ↔
        a ∈ (sortedChannels rows).map (aggFor rows) := by
      intro a
      unfold channelPerf
      rw [(isortBy_perm (fun a b : ChannelAggregate => decide (b.avg_roas ≤ a.avg_roas))
          ((sortedChannels rows).map (aggFor rows))).mem_iff]
    have hall : ∀ a ∈ (sortedChannels rows).map (aggFor rows), a.avg_roas = q :=
      fun a ha => hq a ((hmem a).mpr ha)
    have hperf : channelPerf rows = (sortedChannels rows).map (aggFor rows) :=
      isortBy_eq_self _ fun a ha b hb =>
        decide_eq_true (le_of_eq ((hall b hb).trans (hall a ha).symm))
    have hsorted : (sortedChannels rows).Pairwise (fun a b => strLe a b = true) :=
      isortBy_pairwise strLe strLe_total strLe_trans (channelsInOrder rows)
    have hsortedAgg : ((sortedChannels rows).map (aggFor rows)).Pairwise
        (fun a b => strLe a.channel b.channel = true) := by
      rw [List.pairwise_map]
      exact hsorted
    rw [← hperf, h] at hsortedAgg
    constructor
    · intro a ha
      rw [h] at ha
      rcases List.mem_cons.mp ha with rfl | ha2
      · exact strLe_refl _
      · exact (List.pairwise_cons.mp hsortedAgg).1 a ha2
    · unfold channelRule
      rw [h]
      simp

/-- Witness for C7 amended: on the all-tied Beta/Alpha/Gamma table, the
selected channel is the lexicographically least, "Alpha". -/
theorem C7_amended_witness :
    (channelRule [tRowB, tRowA, tRowG]).map Insight.subject =
      [(⟨"Alpha", 3, 2⟩ : ChannelAggregate).channel] :=
  (C7_amended.2 [tRowB, tRowA, tRowG] 3
    (by with_unfolding_all decide)
    ⟨"Alpha", 3, 2⟩ [⟨"Beta", 3, 1⟩, ⟨"Gamma", 3, 3⟩]
    (by with_unfolding_all rfl)).2

/-- The insights `analyze` appends depend only on the table: a call from
any prior state returns the same status and appends the same suffix as a
call from the empty state. -/
theorem analyze_append (st : List Insight) (df : DFrame) :
    analyze st df = ((analyze [] df).1, st ++ (analyze [] df).2) := by
  by_cases h1 : "channel" ∈ df.cols
  · by_cases h2 : "roas" ∈ df.cols
    · by_cases h3 : "spend" ∈ df.cols
      · by_cases h4 : "search_volume" ∈ df.cols
        · by_cases h5 : "average_position" ∈ df.cols
          · cases hm : seoTop df.rows with
            | none => simp [analyze, h1, h2, h3, h4, h5, hm]
            | some t =>
              by_cases h6 : "category" ∈ df.cols
              · simp [analyze, h1, h2, h3, h4, h5, h6, hm]
              · simp [analyze, h1, h2, h3, h4, h5, h6, hm]
          · simp [analyze, h1, h2, h3, h4, h5]
        · simp [analyze, h1, h2, h3, h4]
      · simp [analyze, h1, h2, h3]
    · simp [analyze, h1, h2]
  · simp [analyze, h1]

/-- C8 counterexample: `analyze` is not idempotent on a generator: on the
example table the first call leaves 2 insights, and a second call on the
same generator state leaves 4 — the previous insights plus a fresh copy,
not an identical sequence of length 2. -/
theorem C8_counterexample :
    (analyze [] (mkDF [exRow1, exRow2])).2.length = 2 ∧
    (analyze (analyze [] (mkDF [exRow1, exRow2])).2 (mkDF [exRow1, exRow2])).2.length = 4 := by
  constructor <;> with_unfolding_all rfl

/-- C8 amended: `analyze` appends to the generator's insight list the
insights computed from the table alone (so separate generators on the
identical table produce identical lists), and a second successful call on
the same generator yields the first call's list concatenated with an
identical fresh copy — an accumulation, not an identical sequence. -/
theorem C8_amended :
    (∀ st df, analyze st df = ((analyze [] df).1, st ++ (analyze [] df).2)) ∧
    (∀ df l, analyze [] df = (Except.ok (), l) →
      analyze l df = (Except.ok (), l ++ l)) := by
  constructor
  · exact analyze_append
  · intro df l h
    rw [analyze_append l df, h]

/-- Witness for C8 amended: the doubling on the concrete example table. -/
theorem C8_amended_witness :
    analyze
      [⟨"FUN-001", "Funnel", "Top Channel by ROAS", "Email", 0⟩,
       ⟨"SEO-001", "SEO", "High-Volume, Poorly Ranked Category", "Shoes", 1⟩]
      (mkDF [exRow1, exRow2]) =
      (Except.ok (),
       [⟨"FUN-001", "Funnel", "Top Channel by ROAS", "Email", 0⟩,
        ⟨"SEO-001", "SEO", "High-Volume, Poorly Ranked Category", "Shoes", 1⟩] ++
       [⟨"FUN-001", "Funnel", "Top Channel by ROAS", "Email", 0⟩,
        ⟨"SEO-001", "SEO", "High-Volume, Poorly Ranked Category", "Shoes", 1⟩]) :=
  C8_amended.2 (mkDF [exRow1, exRow2])
    [⟨"FUN-001", "Funnel", "Top Channel by ROAS", "Email", 0⟩,
     ⟨"SEO-001", "SEO", "High-Volume, Poorly Ranked Category", "Shoes", 1⟩]
    (by with_unfolding_all rfl)

end D2C
